import Mathlib

/-!
Shallow embedding of the CellScanner prediction-and-analysis pipeline
(`scripts/run_prediction.py`) and proofs about its behaviour.

Numeric cell values (Python floats) are modelled as rationals; every float is a
rational and all comparisons the code performs on them are exact rational
comparisons.  The transcendental `np.arcsinh` is modelled as an explicit
function parameter `arsinh : ℚ → ℚ`; theorems that depend on its behaviour
assume only the properties of the real arcsinh they need (monotonicity,
`arsinh x ≤ x` for `0 ≤ x`), and witnesses instantiate it with a concrete
function enjoying those properties.  Shannon entropy (`scipy.stats.entropy`)
is modelled over the reals with `Real.log`.
-/

namespace CellScanner

/-- A cell value of a data table: numeric, boolean, or string. -/
inductive Val where
  | num (q : ℚ)
  | bool (b : Bool)
  | str (s : String)
deriving DecidableEq

/-- A pandas `DataFrame`: a row count and named columns (order matters,
as in pandas). -/
structure DF where
  nrows : ℕ
  cols : List (String × List Val)
deriving DecidableEq

/-- Well-formedness: every column has exactly `nrows` entries. -/
def DF.WF (df : DF) : Prop := ∀ c ∈ df.cols, c.2.length = df.nrows

/-- First column with a given name in a column list. -/
def lookupCol : List (String × List Val) → String → Option (List Val)
  | [], _ => none
  | c :: l, name => if c.1 = name then some c.2 else lookupCol l name

/-- `df[name]`, as an optional column (missing name → `none`). -/
def DF.getCol (df : DF) (name : String) : Option (List Val) :=
  lookupCol df.cols name

/-- `name in df.columns`. -/
def DF.hasCol (df : DF) (name : String) : Bool :=
  (df.getCol name).isSome

/-- `df[name] = v`: pandas column assignment replaces an existing column in
place and otherwise appends a new column at the end. -/
def DF.setCol (df : DF) (name : String) (v : List Val) : DF :=
  if df.hasCol name then
    { df with cols := df.cols.map (fun c => if c.1 = name then (c.1, v) else c) }
  else
    { df with cols := df.cols ++ [(name, v)] }

/-- `df.pop(name)`: remove the column, returning it together with the
remaining frame. -/
def DF.pop (df : DF) (name : String) : Option (List Val) × DF :=
  (df.getCol name, { df with cols := df.cols.filter (fun c => !(c.1 == name)) })

/-- `df.copy()`: a deep copy; in value semantics the same value. -/
def DF.copy (df : DF) : DF := df

/-- Whether a cell is numeric (pandas dtype selection `include=[np.number]`;
booleans and strings are not numeric dtypes). -/
def isNumCell : Val → Bool
  | .num _ => true
  | _ => false

/-- A column is numeric when all of its cells are. -/
def isNumericCol (c : List Val) : Bool := c.all isNumCell

/-- Map a function over the numeric cells of a column. -/
def mapNum (f : ℚ → ℚ) (c : List Val) : List Val :=
  c.map (fun v => match v with | .num q => .num (f q) | v => v)

/-- The loop `for column in df.select_dtypes(include=[np.number]).columns:
df[column] = f(df[column])`. -/
def DF.transformNumeric (df : DF) (f : ℚ → ℚ) : DF :=
  { df with cols := df.cols.map (fun c => if isNumericCol c.2 then (c.1, mapNum f c.2) else c) }

/-- Elementwise `series > t` on a column (non-numeric cells compare `False`). -/
def colGT (c : List Val) (t : ℚ) : List Bool :=
  c.map (fun v => match v with | .num q => decide (t < q) | _ => false)

/-- Elementwise `series < t` on a column. -/
def colLT (c : List Val) (t : ℚ) : List Bool :=
  c.map (fun v => match v with | .num q => decide (q < t) | _ => false)

/-- Elementwise `series == s` for a string scalar `s`. -/
def colEqStr (c : List Val) (s : String) : List Bool :=
  c.map (fun v => match v with | .str t => t == s | _ => false)

/-- Overwrite the cells selected by a boolean mask with a constant value
(`df.loc[mask, col] = v` on the column's cells). -/
def maskSet (c : List Val) (mask : List Bool) (v : Val) : List Val :=
  List.zipWith (fun old b => if b then v else old) c mask

/-- `df.loc[mask, name] = v` (the column must exist; missing → unchanged). -/
def DF.locSet (df : DF) (mask : List Bool) (name : String) (v : Val) : DF :=
  match df.getCol name with
  | some c => df.setCol name (maskSet c mask v)
  | none => df

/-- Keep the cells of a column selected by a boolean row mask. -/
def maskFilter (c : List Val) (mask : List Bool) : List Val :=
  ((List.zipWith (fun v b => (v, b)) c mask).filter (fun p => p.2)).map (fun p => p.1)

/-- `df[mask]`: boolean row indexing. -/
def DF.rowFilter (df : DF) (mask : List Bool) : DF :=
  { nrows := (mask.filter id).length,
    cols := df.cols.map (fun c => (c.1, maskFilter c.2 mask)) }

/-- The numeric entries of a column. -/
def colNums (c : List Val) : List ℚ :=
  c.filterMap (fun v => match v with | .num q => some q | _ => none)

/-- `np.min` over a list of rationals (0 on the empty list, a case the code
never reaches). -/
def qMin : List ℚ → ℚ
  | [] => 0
  | h :: t => t.foldl min h

/-- `np.max` over a list of rationals. -/
def qMax : List ℚ → ℚ
  | [] => 0
  | h :: t => t.foldl max h

/-- `np.min(df[channel])`. -/
def DF.chanMin (df : DF) (name : String) : ℚ :=
  qMin (colNums ((df.getCol name).getD []))

/-- `np.max(df[channel])`. -/
def DF.chanMax (df : DF) (name : String) : ℚ :=
  qMax (colNums ((df.getCol name).getD []))

/-- Python truthiness of an optional string (`None` and `""` are falsy). -/
def pyTruthyStr : Option String → Bool
  | none => false
  | some s => s != ""

/-- Python truthiness of a float (`0.0` is falsy). -/
def pyTruthyFloat (q : ℚ) : Bool := q != 0

/-- The payload of the `ValueError` raised by `stain_sannity_check`: its
message interpolates the channel, the configured relation and threshold, and
the observed min/max of the channel. -/
structure GatingError where
  channel : String
  sign : String
  threshold : ℚ
  stain_min : ℚ
  stain_max : ℚ
deriving DecidableEq

/-- `stain_sannity_check(df, label, channel, sign, threshold)`: the boolean
gate column must contain both a `True` and a `False`; otherwise raise,
reporting the channel's observed range and the configured threshold. -/
def stain_sannity_check (df : DF) (label channel sign : String) (threshold : ℚ) :
    Except GatingError Unit :=
  let counts := (df.getCol label).getD []
  if Val.bool true ∉ counts ∨ Val.bool false ∉ counts then
    .error ⟨channel, sign, threshold, df.chanMin channel, df.chanMax channel⟩
  else
    .ok ()

/-- One extra stain: `extra_stains` maps a channel to `(sign, threshold,
label)`. -/
structure ExtraStain where
  channel : String
  sign : String
  threshold : ℚ
  label : String
deriving DecidableEq

/-- The primary-stain gating block of `apply_gating` (run once for stain 1
with label `dead` and once for stain 2 with label `cell`): initialise the
label column to `False`, then set `True` where the channel compares with the
threshold according to the relation; unrecognised relation strings leave the
column all `False`. -/
def primaryGate (df : DF) (channel rel : String) (t : ℚ) (label : String) : DF :=
  let df := df.setCol label (List.replicate df.nrows (.bool false))
  if rel = ">" ∨ rel = "greater_than" then
    df.locSet (colGT ((df.getCol channel).getD []) t) label (.bool true)
  else if rel = "<" ∨ rel = "less_than" then
    df.locSet (colLT ((df.getCol channel).getD []) t) label (.bool true)
  else df

/-- The state-derivation block of `apply_gating`: default `state = "debris"`,
then `"live"` where `dead == False & cell == True`, then `"inactive"` where
`dead == True & cell == True`. -/
def deriveState (df : DF) : DF :=
  let df := df.setCol "state" (List.replicate df.nrows (.str "debris"))
  let liveMask := List.zipWith
    (fun d c => d == Val.bool false && c == Val.bool true)
    ((df.getCol "dead").getD []) ((df.getCol "cell").getD [])
  let df := df.locSet liveMask "state" (.str "live")
  let inactiveMask := List.zipWith
    (fun d c => d == Val.bool true && c == Val.bool true)
    ((df.getCol "dead").getD []) ((df.getCol "cell").getD [])
  df.locSet inactiveMask "state" (.str "inactive")

/-- One iteration of the extra-stain loop: build the comparison column
(`>` means greater, any other sign means less, as in the source's
conditional expression), assign it under the stain's label, sanity-check it. -/
def gateExtraOne (df : DF) (labels : List String) (st : ExtraStain) :
    Except GatingError (DF × List String) :=
  let condition :=
    if st.sign = ">" then colGT ((df.getCol st.channel).getD []) st.threshold
    else colLT ((df.getCol st.channel).getD []) st.threshold
  let df2 := df.setCol st.label (condition.map Val.bool)
  match stain_sannity_check df2 st.label st.channel st.sign st.threshold with
  | .error e => .error e
  | .ok _ => .ok (df2, labels ++ [st.label])

/-- The extra-stain loop of `apply_gating`. -/
def gateExtraList (df : DF) (labels : List String) :
    List ExtraStain → Except GatingError (DF × List String)
  | [] => .ok (df, labels)
  | st :: rest =>
      match gateExtraOne df labels st with
      | .error e => .error e
      | .ok r => gateExtraList r.1 r.2 rest

/-- The preprocessing stage of `apply_gating` (lines 209–223): copy the
input, temporarily pop `predictions` to avoid the numeric transform, apply
`arcsinh(x / cofactor)` to every numeric column, reinsert `predictions`. -/
def gatingPre (arsinh : ℚ → ℚ) (data_df : DF) (scaling_constant : ℚ) : DF :=
  let gated_data_df := data_df.copy
  let pc_pop :=
    if gated_data_df.hasCol "predictions" then gated_data_df.pop "predictions"
    else (none, gated_data_df)
  let cofactor := scaling_constant
  let gated_data_df := (pc_pop.2).transformNumeric (fun x => arsinh (x / cofactor))
  match pc_pop.1 with
  | some pc => gated_data_df.setCol "predictions" pc
  | none => gated_data_df

/-- The stain-1 block of `apply_gating` (lines 225–236): gate into `dead`,
sanity-check, append the label; no-op when stain 1 is `None`. -/
def gatingStain1 (g : DF) (labels : List String) (stain1 : Option String)
    (rel : String) (t : ℚ) : Except GatingError (DF × List String) :=
  match stain1 with
  | some s1 =>
      let g1 := primaryGate g s1 rel t "dead"
      match stain_sannity_check g1 "dead" s1 rel t with
      | .error e => .error e
      | .ok _ => .ok (g1, labels ++ ["dead"])
  | none => .ok (g, labels)

/-- The stain-2 block of `apply_gating` (lines 238–249): gate into `cell`,
sanity-check, append the label; no-op when stain 2 is `None`. -/
def gatingStain2 (g : DF) (labels : List String) (stain2 : Option String)
    (rel : String) (t : ℚ) : Except GatingError (DF × List String) :=
  match stain2 with
  | some s2 =>
      let g1 := primaryGate g s2 rel t "cell"
      match stain_sannity_check g1 "cell" s2 rel t with
      | .error e => .error e
      | .ok _ => .ok (g1, labels ++ ["cell"])
  | none => .ok (g, labels)

/-- The guarded state-derivation stage (lines 252–264): run only when
`stain2 and stain2_threshold and stain1` is truthy in Python's sense
(a `0.0` threshold is falsy). -/
def gatingState (g : DF) (labels : List String) (stain1 stain2 : Option String)
    (stain2_threshold : ℚ) : DF × List String :=
  if pyTruthyStr stain2 && pyTruthyFloat stain2_threshold && pyTruthyStr stain1 then
    (deriveState g, labels ++ ["state"])
  else (g, labels)

/-- `apply_gating`, together with the caller's frame: the returned pair is
(the object the caller's `data_df` argument refers to when the function
returns, the function's result).  The body mirrors the source: preprocess
the copied input, gate stain 1 into `dead`, stain 2 into `cell`, derive
`state` under the truthiness guard, gate the extra stains, and return the
gated frame with the accumulated label list.  The hardcoded debug CSV dump
is external I/O and has no effect on the returned values. -/
def apply_gatingImpl (arsinh : ℚ → ℚ) (data_df : DF)
    (stain1 : Option String) (stain1_relation : String) (stain1_threshold : ℚ)
    (stain2 : Option String) (stain2_relation : String) (stain2_threshold : ℚ)
    (scaling_constant : ℚ) (extra_stains : Option (List ExtraStain)) :
    DF × Except GatingError (DF × List String) :=
  let all_labels : List String := []
  let gated_data_df := gatingPre arsinh data_df scaling_constant
  let result : Except GatingError (DF × List String) :=
    match gatingStain1 gated_data_df all_labels stain1 stain1_relation stain1_threshold with
    | .error e => .error e
    | .ok s1res =>
        match gatingStain2 s1res.1 s1res.2 stain2 stain2_relation stain2_threshold with
        | .error e => .error e
        | .ok s2res =>
            let stres := gatingState s2res.1 s2res.2 stain1 stain2 stain2_threshold
            match extra_stains with
            | some stains => gateExtraList stres.1 stres.2 stains
            | none => .ok stres
  (data_df, result)

/-- The result of `apply_gating` (the gated frame and the label list, or the
gating-configuration error). -/
def apply_gatingResult (arsinh : ℚ → ℚ) (data_df : DF)
    (stain1 : Option String) (stain1_relation : String) (stain1_threshold : ℚ)
    (stain2 : Option String) (stain2_relation : String) (stain2_threshold : ℚ)
    (scaling_constant : ℚ) (extra_stains : Option (List ExtraStain)) :
    Except GatingError (DF × List String) :=
  (apply_gatingImpl arsinh data_df stain1 stain1_relation stain1_threshold
    stain2 stain2_relation stain2_threshold scaling_constant extra_stains).2

/-- The label-list rewriting performed by `save_gating_results`:
`if "state" in all_labels: all_labels.remove("dead"); all_labels.remove("cell")`
(removal of the first occurrence). -/
def saveGatingLabels (all_labels : List String) : List String :=
  if "state" ∈ all_labels then (all_labels.erase "dead").erase "cell"
  else all_labels

/-- The orchestrator's choice of the heterogeneity input table
(`hetero_df = gating_df[gating_df['state'] == 'live'] if "state" in
all_labels else gating_df` when gating ran, `data_df_pred.copy()`
otherwise).  `labels_after` is the label list as it stands after
`save_gating_results` has run. -/
def heteroInput (gating : Bool) (gating_df : DF) (labels_after : List String)
    (data_df_pred : DF) : DF :=
  if gating then
    if "state" ∈ labels_after then
      gating_df.rowFilter (colEqStr ((gating_df.getCol "state").getD []) "live")
    else gating_df
  else data_df_pred.copy

/-- The uncertainty filter (line 124):
`df.loc[df["uncertainties"] > threshold, "predictions"] = "Unknown"`. -/
def filter_uncertain (df : DF) (threshold : ℚ) : DF :=
  df.locSet (colGT ((df.getCol "uncertainties").getD []) threshold)
    "predictions" (.str "Unknown")

/-- `series.mean()`. -/
def seriesMean (l : List ℚ) : ℚ := l.sum / l.length

/-- `np.ptp`: max minus min of a column. -/
def ptp (c : List ℚ) : ℚ := qMax c - qMin c

/-- `np.sum` applied to a scalar (a 0-dimensional reduction is the scalar
itself). -/
def npSumScalar (x : ℚ) : ℚ := x

/-- `hetero_simple(data)`: `ranges = data.apply(np.ptp, axis=0)` (one range
per column) then `np.sum(ranges.mean())`.  `data` is the table as a list of
numeric columns. -/
def hetero_simple (data : List (List ℚ)) : ℚ :=
  npSumScalar (seriesMean (data.map ptp))

/-- `scipy.stats.entropy(pk)` for one row of the probability matrix:
normalise by the row sum, then sum `-p*log p` (natural base, with
`0 * log 0 = 0`). -/
noncomputable def scipyEntropy {K : ℕ} (p : Fin K → ℝ) : ℝ :=
  ∑ i, Real.negMulLog (p i / ∑ j, p j)

/-- `max_entropy = math.log(number_of_classes)`. -/
noncomputable def max_entropy (K : ℕ) : ℝ := Real.log K

/-- The condition under which `predict` raises on the uncertainty threshold
(line 87): `(t < 0 and t != -1.0) or t > max_entropy`. -/
def thresholdRejected (t : ℝ) (K : ℕ) : Prop :=
  (t < 0 ∧ t ≠ -1) ∨ t > max_entropy K

/-- The effective uncertainty threshold: the auto sentinel `-1.0` is replaced
by `0.5 * max_entropy` (lines 90–91), any other accepted value is used as
given. -/
noncomputable def effectiveThreshold (t : ℝ) (K : ℕ) : ℝ :=
  if t = -1 then 0.5 * max_entropy K else t

/-- The label list of a gating result (empty on error). -/
def resLabels (r : Except GatingError (DF × List String)) : List String :=
  match r with
  | .ok p => p.2
  | .error _ => []

/-- The gated frame of a gating result (empty frame on error). -/
def resDF (r : Except GatingError (DF × List String)) : DF :=
  match r with
  | .ok p => p.1
  | .error _ => ⟨0, []⟩

/-- Whether a gating result succeeded. -/
def resIsOk (r : Except GatingError (DF × List String)) : Bool :=
  match r with
  | .ok _ => true
  | .error _ => false

/-- A two-row frame on which both primary stains gate properly but the second
stain's threshold is the (falsy) float `0.0`. -/
def dfThresholdZero : DF :=
  ⟨2, [("A", [.num 300, .num (-300)]), ("B", [.num 150, .num (-150)])]⟩

/-- A two-row frame on which both primary stains gate properly with a nonzero
second threshold. -/
def dfTwoStains : DF :=
  ⟨2, [("A", [.num 300, .num (-300)]), ("B", [.num 300, .num (-300)])]⟩

/-- The spec's sanity-check example: a single channel with values
`[1,2,3,4,5]`. -/
def dfFive : DF :=
  ⟨5, [("ch", [.num 1, .num 2, .num 3, .num 4, .num 5])]⟩

/-- A two-row prediction frame for exercising the uncertainty filter. -/
def dfUncertain : DF :=
  ⟨2, [("uncertainties", [.num 1, .num 0]), ("predictions", [.str "a", .str "b"])]⟩

/-- The gated frame produced by running `apply_gating` on `dfTwoStains` with
`arsinh = id`, stain 1 `("A", ">", 0)` and stain 2 `("B", ">", 1)`. -/
def dfTwoStainsGated : DF :=
  ⟨2, [("A", [.num 2, .num (-2)]), ("B", [.num 2, .num (-2)]),
    ("dead", [.bool true, .bool false]), ("cell", [.bool true, .bool false]),
    ("state", [.str "inactive", .str "debris"])]⟩

/-! ### Basic lemmas about the frame operations -/

theorem lookupCol_set_self (l : List (String × List Val)) (name : String) (v : List Val)
    (h : (lookupCol l name).isSome = true) :
    lookupCol (l.map (fun c => if c.1 = name then (c.1, v) else c)) name = some v := by
  induction l with
  | nil => simp [lookupCol] at h
  | cons c l ih =>
      by_cases hc : c.1 = name
      · simp [lookupCol, hc]
      · simp only [lookupCol, hc, if_false] at h
        simpa [lookupCol, hc] using ih h

theorem lookupCol_set_ne (l : List (String × List Val)) (name other : String) (v : List Val)
    (h : other ≠ name) :
    lookupCol (l.map (fun c => if c.1 = name then (c.1, v) else c)) other =
      lookupCol l other := by
  induction l with
  | nil => rfl
  | cons c l ih =>
      by_cases hc : c.1 = name
      · have hco : ¬ (c.1 = other) := by rw [hc]; exact fun he => h he.symm
        simp [lookupCol, hc, hco, Ne.symm h, ih]
      · by_cases ho : c.1 = other
        · simp [lookupCol, hc, ho, Ne.symm h, h]
        · simp [lookupCol, hc, ho, ih]

theorem lookupCol_append (l l₂ : List (String × List Val)) (name : String) :
    lookupCol (l ++ l₂) name =
      match lookupCol l name with
      | some v => some v
      | none => lookupCol l₂ name := by
  induction l with
  | nil => rfl
  | cons c l ih =>
      by_cases hc : c.1 = name
      · simp [lookupCol, hc]
      · simp [lookupCol, hc, ih]

theorem lookupCol_filter_ne (l : List (String × List Val)) (name other : String)
    (h : other ≠ name) :
    lookupCol (l.filter (fun c => !(c.1 == name))) other = lookupCol l other := by
  induction l with
  | nil => rfl
  | cons c l ih =>
      by_cases hc : c.1 = name
      · have hco : ¬ (c.1 = other) := by rw [hc]; exact fun he => h he.symm
        simp [lookupCol, List.filter_cons, hc, hco, Ne.symm h, ih]
      · by_cases ho : c.1 = other
        · simp [lookupCol, List.filter_cons, hc, ho, Ne.symm h, h]
        · simp [lookupCol, List.filter_cons, hc, ho, ih]

theorem lookupCol_map_transform (l : List (String × List Val)) (f : ℚ → ℚ) (name : String) :
    lookupCol (l.map (fun c => if isNumericCol c.2 then (c.1, mapNum f c.2) else c)) name =
      (lookupCol l name).map (fun c => if isNumericCol c then mapNum f c else c) := by
  induction l with
  | nil => rfl
  | cons c l ih =>
      by_cases hc : c.1 = name
      · by_cases hn : isNumericCol c.2 <;> simp [lookupCol, hc, hn]
      · by_cases hn : isNumericCol c.2 <;> simp [lookupCol, hc, hn, ih]

theorem lookupCol_mem (l : List (String × List Val)) (name : String) (c : List Val)
    (h : lookupCol l name = some c) : ∃ k, (k, c) ∈ l := by
  induction l with
  | nil => simp [lookupCol] at h
  | cons c0 l ih =>
      by_cases hc : c0.1 = name
      · simp only [lookupCol, hc, if_true, Option.some.injEq] at h
        refine ⟨c0.1, ?_⟩
        rw [← h]
        simp
      · simp only [lookupCol, hc, if_false] at h
        obtain ⟨k, hk⟩ := ih h
        exact ⟨k, List.mem_cons_of_mem _ hk⟩

theorem DF.getCol_setCol_self (df : DF) (name : String) (v : List Val) :
    (df.setCol name v).getCol name = some v := by
  unfold DF.setCol
  by_cases h : df.hasCol name
  · rw [if_pos h]
    exact lookupCol_set_self df.cols name v h
  · rw [if_neg h]
    show lookupCol (df.cols ++ [(name, v)]) name = some v
    rw [lookupCol_append]
    have : lookupCol df.cols name = none := by
      rcases hx : lookupCol df.cols name with _ | c
      · rfl
      · exact absurd (by simp [DF.hasCol, DF.getCol, hx]) h
    simp [this, lookupCol]

theorem DF.getCol_setCol_ne (df : DF) (name other : String) (v : List Val)
    (h : other ≠ name) : (df.setCol name v).getCol other = df.getCol other := by
  unfold DF.setCol
  by_cases hc : df.hasCol name
  · rw [if_pos hc]
    exact lookupCol_set_ne df.cols name other v h
  · rw [if_neg hc]
    show lookupCol (df.cols ++ [(name, v)]) other = df.getCol other
    rw [lookupCol_append]
    rcases hx : lookupCol df.cols other with _ | c
    · simp [DF.getCol, hx, lookupCol, Ne.symm h]
    · simp [DF.getCol, hx]

theorem DF.getCol_pop_ne (df : DF) (name other : String) (h : other ≠ name) :
    (df.pop name).2.getCol other = df.getCol other := by
  exact lookupCol_filter_ne df.cols name other h

theorem DF.getCol_transformNumeric (df : DF) (f : ℚ → ℚ) (name : String) :
    (df.transformNumeric f).getCol name =
      (df.getCol name).map (fun c => if isNumericCol c then mapNum f c else c) := by
  exact lookupCol_map_transform df.cols f name

theorem DF.hasCol_transformNumeric (df : DF) (f : ℚ → ℚ) (name : String) :
    (df.transformNumeric f).hasCol name = df.hasCol name := by
  unfold DF.hasCol
  rw [DF.getCol_transformNumeric]
  rcases df.getCol name <;> simp

theorem DF.locSet_eq_setCol (df : DF) (mask : List Bool) (name : String)
    (v : Val) (c : List Val) (h : df.getCol name = some c) :
    df.locSet mask name v = df.setCol name (maskSet c mask v) := by
  unfold DF.locSet
  rw [h]

theorem DF.getCol_locSet_ne (df : DF) (mask : List Bool) (name other : String)
    (v : Val) (h : other ≠ name) :
    (df.locSet mask name v).getCol other = df.getCol other := by
  unfold DF.locSet
  rcases df.getCol name with _ | c
  · rfl
  · exact DF.getCol_setCol_ne _ _ _ _ h

theorem DF.nrows_setCol (df : DF) (name : String) (v : List Val) :
    (df.setCol name v).nrows = df.nrows := by
  unfold DF.setCol
  by_cases h : df.hasCol name
  · rw [if_pos h]
  · rw [if_neg h]

theorem DF.nrows_locSet (df : DF) (mask : List Bool) (name : String) (v : Val) :
    (df.locSet mask name v).nrows = df.nrows := by
  unfold DF.locSet
  rcases df.getCol name with _ | c
  · rfl
  · exact DF.nrows_setCol _ _ _

theorem DF.nrows_transformNumeric (df : DF) (f : ℚ → ℚ) :
    (df.transformNumeric f).nrows = df.nrows := rfl

theorem DF.nrows_pop (df : DF) (name : String) :
    (df.pop name).2.nrows = df.nrows := rfl

theorem DF.getCol_length (df : DF) (name : String) (c : List Val)
    (hwf : df.WF) (h : df.getCol name = some c) : c.length = df.nrows := by
  obtain ⟨k, hk⟩ := lookupCol_mem df.cols name c h
  exact hwf (k, c) hk

theorem DF.WF_setCol (df : DF) (name : String) (v : List Val)
    (hwf : df.WF) (hv : v.length = df.nrows) : (df.setCol name v).WF := by
  unfold DF.setCol
  by_cases h : df.hasCol name
  · rw [if_pos h]
    intro c hc
    simp only [List.mem_map] at hc
    obtain ⟨c0, hc0, hceq⟩ := hc
    by_cases hx : c0.1 = name
    · rw [← hceq]; simpa [hx] using hv
    · rw [← hceq]; simpa [hx] using hwf c0 hc0
  · rw [if_neg h]
    intro c hc
    rcases List.mem_append.mp hc with hin | hin
    · exact hwf c hin
    · simp only [List.mem_singleton] at hin
      rw [hin]
      exact hv

theorem DF.WF_locSet (df : DF) (mask : List Bool) (name : String) (v : Val)
    (hwf : df.WF) (hm : mask.length = df.nrows) : (df.locSet mask name v).WF := by
  unfold DF.locSet
  rcases h : df.getCol name with _ | c
  · exact hwf
  · have hc := DF.getCol_length df name c hwf h
    apply DF.WF_setCol df name _ hwf
    unfold maskSet
    rw [List.length_zipWith, hc, hm, min_self]

theorem DF.WF_transformNumeric (df : DF) (f : ℚ → ℚ) (hwf : df.WF) :
    (df.transformNumeric f).WF := by
  intro c hc
  simp only [DF.transformNumeric, List.mem_map] at hc
  obtain ⟨c0, hc0, hceq⟩ := hc
  by_cases hx : isNumericCol c0.2
  · rw [← hceq]; simpa [hx, mapNum] using hwf c0 hc0
  · rw [← hceq]; simpa [hx] using hwf c0 hc0

theorem DF.WF_pop (df : DF) (name : String) (hwf : df.WF) : (df.pop name).2.WF := by
  intro c hc
  exact hwf c (List.mem_of_mem_filter hc)

/-! ### Further support lemmas -/

theorem foldl_max_mem (l : List ℚ) (a : ℚ) : l.foldl max a = a ∨ l.foldl max a ∈ l := by
  induction l generalizing a with
  | nil => exact Or.inl rfl
  | cons b l ih =>
      rcases ih (max a b) with h | h
      · rcases max_choice a b with hm | hm
        · exact Or.inl (by rw [List.foldl_cons, h, hm])
        · exact Or.inr (by rw [List.foldl_cons, h, hm]; exact List.mem_cons_self _ _)
      · exact Or.inr (List.mem_cons_of_mem _ h)

theorem le_foldl_max (l : List ℚ) (a : ℚ) :
    a ≤ l.foldl max a ∧ ∀ x ∈ l, x ≤ l.foldl max a := by
  induction l generalizing a with
  | nil => exact ⟨le_refl a, by simp⟩
  | cons b l ih =>
      obtain ⟨h1, h2⟩ := ih (max a b)
      refine ⟨le_trans (le_max_left a b) h1, ?_⟩
      intro x hx
      rcases List.mem_cons.mp hx with hx | hx
      · rw [hx, List.foldl_cons]
        exact le_trans (le_max_right a b) h1
      · exact h2 x hx

theorem foldl_min_mem (l : List ℚ) (a : ℚ) : l.foldl min a = a ∨ l.foldl min a ∈ l := by
  induction l generalizing a with
  | nil => exact Or.inl rfl
  | cons b l ih =>
      rcases ih (min a b) with h | h
      · rcases min_choice a b with hm | hm
        · exact Or.inl (by rw [List.foldl_cons, h, hm])
        · exact Or.inr (by rw [List.foldl_cons, h, hm]; exact List.mem_cons_self _ _)
      · exact Or.inr (List.mem_cons_of_mem _ h)

theorem foldl_min_le (l : List ℚ) (a : ℚ) :
    l.foldl min a ≤ a ∧ ∀ x ∈ l, l.foldl min a ≤ x := by
  induction l generalizing a with
  | nil => exact ⟨le_refl a, by simp⟩
  | cons b l ih =>
      obtain ⟨h1, h2⟩ := ih (min a b)
      refine ⟨le_trans h1 (min_le_left a b), ?_⟩
      intro x hx
      rcases List.mem_cons.mp hx with hx | hx
      · rw [hx, List.foldl_cons]
        exact le_trans h1 (min_le_right a b)
      · exact h2 x hx

theorem qMax_spec (c : List ℚ) (h : c ≠ []) : qMax c ∈ c ∧ ∀ x ∈ c, x ≤ qMax c := by
  rcases c with _ | ⟨h0, t⟩
  · exact absurd rfl h
  · constructor
    · rcases foldl_max_mem t h0 with hm | hm
      · rw [qMax, hm]; exact List.mem_cons_self _ _
      · exact List.mem_cons_of_mem _ hm
    · intro x hx
      rcases List.mem_cons.mp hx with hx | hx
      · rw [hx]; exact (le_foldl_max t h0).1
      · exact (le_foldl_max t h0).2 x hx

theorem qMin_spec (c : List ℚ) (h : c ≠ []) : qMin c ∈ c ∧ ∀ x ∈ c, qMin c ≤ x := by
  rcases c with _ | ⟨h0, t⟩
  · exact absurd rfl h
  · constructor
    · rcases foldl_min_mem t h0 with hm | hm
      · rw [qMin, hm]; exact List.mem_cons_self _ _
      · exact List.mem_cons_of_mem _ hm
    · intro x hx
      rcases List.mem_cons.mp hx with hx | hx
      · rw [hx]; exact (foldl_min_le t h0).1
      · exact (foldl_min_le t h0).2 x hx

theorem state_mem_saveGatingLabels (l : List String) :
    "state" ∈ saveGatingLabels l ↔ "state" ∈ l := by
  unfold saveGatingLabels
  by_cases h : "state" ∈ l
  · rw [if_pos h]
    constructor
    · intro _; exact h
    · intro _
      exact (List.mem_erase_of_ne (by decide)).mpr
        ((List.mem_erase_of_ne (by decide)).mpr h)
  · rw [if_neg h]


/-! ### Gating support lemmas -/

theorem valBeq_bool_false (d : Bool) : (Val.bool d == Val.bool false) = !d := by
  cases d <;> rfl

theorem valBeq_bool_true (d : Bool) : (Val.bool d == Val.bool true) = d := by
  cases d <;> rfl

theorem maskSet_replicate_bool (mask : List Bool) (n : ℕ) (h : mask.length = n) :
    maskSet (List.replicate n (Val.bool false)) mask (Val.bool true) = mask.map Val.bool := by
  induction mask generalizing n with
  | nil => subst h; rfl
  | cons b mask ih =>
      subst h
      rw [List.length_cons, List.replicate_succ]
      show (if b then Val.bool true else Val.bool false) ::
          maskSet (List.replicate mask.length (Val.bool false)) mask (Val.bool true) =
        Val.bool b :: mask.map Val.bool
      rw [ih mask.length rfl]
      cases b <;> rfl

theorem state_mask_combine (db cb : List Bool) (n : ℕ) (hdb : db.length = n)
    (hcb : cb.length = n) :
    maskSet (maskSet (List.replicate n (Val.str "debris"))
        (List.zipWith (fun d c => !d && c) db cb) (Val.str "live"))
      (List.zipWith (fun d c => d && c) db cb) (Val.str "inactive") =
    List.zipWith (fun d c => if c then (if d then Val.str "inactive" else Val.str "live")
      else Val.str "debris") db cb := by
  induction db generalizing cb n with
  | nil => simp [maskSet]
  | cons d db ih =>
      rcases cb with _ | ⟨c, cb⟩
      · simp [maskSet]
      · subst hdb
        have hlen : cb.length = db.length := by simpa using hcb
        have htail := ih cb db.length rfl hlen
        rw [List.length_cons, List.replicate_succ]
        show (if d && c then Val.str "inactive"
            else if !d && c then Val.str "live" else Val.str "debris") ::
            maskSet (maskSet (List.replicate db.length (Val.str "debris"))
              (List.zipWith (fun d c => !d && c) db cb) (Val.str "live"))
            (List.zipWith (fun d c => d && c) db cb) (Val.str "inactive") =
          (if c then (if d then Val.str "inactive" else Val.str "live")
            else Val.str "debris") :: List.zipWith
            (fun d c => if c then (if d then Val.str "inactive" else Val.str "live")
              else Val.str "debris") db cb
        rw [htail]
        cases d <;> cases c <;> rfl

theorem DF.getCol_locSet_self (df : DF) (mask : List Bool) (name : String) (v : Val)
    (c : List Val) (h : df.getCol name = some c) :
    (df.locSet mask name v).getCol name = some (maskSet c mask v) := by
  rw [DF.locSet_eq_setCol df mask name v c h]
  exact DF.getCol_setCol_self _ _ _

theorem setCol_channel_col (df : DF) (label ch : String) (hwf : df.WF)
    (hch : df.hasCol ch = true) :
    ∃ cc, (df.setCol label (List.replicate df.nrows (.bool false))).getCol ch = some cc ∧
      cc.length = df.nrows := by
  by_cases he : ch = label
  · subst he
    exact ⟨_, DF.getCol_setCol_self _ _ _, by simp⟩
  · obtain ⟨cc, hcc⟩ := Option.isSome_iff_exists.mp hch
    refine ⟨cc, ?_, DF.getCol_length df ch cc hwf hcc⟩
    rw [DF.getCol_setCol_ne _ _ _ _ he]
    exact hcc

theorem primaryGate_getCol_ne (df : DF) (ch rel : String) (t : ℚ) (label other : String)
    (h : other ≠ label) :
    (primaryGate df ch rel t label).getCol other = df.getCol other := by
  simp only [primaryGate]
  by_cases h1 : rel = ">" ∨ rel = "greater_than"
  · rw [if_pos h1, DF.getCol_locSet_ne _ _ _ _ _ h, DF.getCol_setCol_ne _ _ _ _ h]
  · rw [if_neg h1]
    by_cases h2 : rel = "<" ∨ rel = "less_than"
    · rw [if_pos h2, DF.getCol_locSet_ne _ _ _ _ _ h, DF.getCol_setCol_ne _ _ _ _ h]
    · rw [if_neg h2, DF.getCol_setCol_ne _ _ _ _ h]

theorem primaryGate_nrows (df : DF) (ch rel : String) (t : ℚ) (label : String) :
    (primaryGate df ch rel t label).nrows = df.nrows := by
  simp only [primaryGate]
  by_cases h1 : rel = ">" ∨ rel = "greater_than"
  · rw [if_pos h1, DF.nrows_locSet, DF.nrows_setCol]
  · rw [if_neg h1]
    by_cases h2 : rel = "<" ∨ rel = "less_than"
    · rw [if_pos h2, DF.nrows_locSet, DF.nrows_setCol]
    · rw [if_neg h2, DF.nrows_setCol]

theorem primaryGate_label_col (df : DF) (ch rel : String) (t : ℚ) (label : String)
    (hwf : df.WF) (hch : df.hasCol ch = true) :
    ∃ mask : List Bool, mask.length = df.nrows ∧
      (primaryGate df ch rel t label).getCol label = some (mask.map Val.bool) := by
  have hlab1 : (df.setCol label (List.replicate df.nrows (.bool false))).getCol label =
      some (List.replicate df.nrows (.bool false)) := DF.getCol_setCol_self _ _ _
  obtain ⟨cc, hcc, hlen⟩ := setCol_channel_col df label ch hwf hch
  simp only [primaryGate]
  by_cases h1 : rel = ">" ∨ rel = "greater_than"
  · rw [if_pos h1]
    refine ⟨colGT cc t, by simp [colGT, hlen], ?_⟩
    rw [hcc]
    simp only [Option.getD_some]
    rw [DF.getCol_locSet_self _ _ _ _ _ hlab1]
    rw [maskSet_replicate_bool _ _ (by simp [colGT, hlen])]
  · rw [if_neg h1]
    by_cases h2 : rel = "<" ∨ rel = "less_than"
    · rw [if_pos h2]
      refine ⟨colLT cc t, by simp [colLT, hlen], ?_⟩
      rw [hcc]
      simp only [Option.getD_some]
      rw [DF.getCol_locSet_self _ _ _ _ _ hlab1]
      rw [maskSet_replicate_bool _ _ (by simp [colLT, hlen])]
    · rw [if_neg h2]
      refine ⟨List.replicate df.nrows false, by simp, ?_⟩
      rw [hlab1]
      simp [List.map_replicate]

theorem primaryGate_WF (df : DF) (ch rel : String) (t : ℚ) (label : String)
    (hwf : df.WF) (hch : df.hasCol ch = true) : (primaryGate df ch rel t label).WF := by
  have hwf1 : (df.setCol label (List.replicate df.nrows (.bool false))).WF :=
    DF.WF_setCol _ _ _ hwf (by simp)
  have hn1 : (df.setCol label (List.replicate df.nrows (.bool false))).nrows = df.nrows :=
    DF.nrows_setCol _ _ _
  obtain ⟨cc, hcc, hlen⟩ := setCol_channel_col df label ch hwf hch
  simp only [primaryGate]
  by_cases h1 : rel = ">" ∨ rel = "greater_than"
  · rw [if_pos h1]
    apply DF.WF_locSet _ _ _ _ hwf1
    rw [hcc]
    simp [colGT, hlen, hn1]
  · rw [if_neg h1]
    by_cases h2 : rel = "<" ∨ rel = "less_than"
    · rw [if_pos h2]
      apply DF.WF_locSet _ _ _ _ hwf1
      rw [hcc]
      simp [colLT, hlen, hn1]
    · rw [if_neg h2]
      exact hwf1

theorem primaryGate_hasCol_of (df : DF) (ch rel : String) (t : ℚ) (label name : String)
    (h : df.hasCol name = true) : (primaryGate df ch rel t label).hasCol name = true := by
  by_cases he : name = label
  · subst he
    simp only [primaryGate]
    by_cases h1 : rel = ">" ∨ rel = "greater_than"
    · rw [if_pos h1]
      unfold DF.hasCol
      rw [DF.getCol_locSet_self _ _ _ _ _ (DF.getCol_setCol_self _ _ _)]
      rfl
    · rw [if_neg h1]
      by_cases h2 : rel = "<" ∨ rel = "less_than"
      · rw [if_pos h2]
        unfold DF.hasCol
        rw [DF.getCol_locSet_self _ _ _ _ _ (DF.getCol_setCol_self _ _ _)]
        rfl
      · rw [if_neg h2]
        unfold DF.hasCol
        rw [DF.getCol_setCol_self]
        rfl
  · unfold DF.hasCol
    rw [primaryGate_getCol_ne _ _ _ _ _ _ he]
    exact h

theorem gatingPre_eq_of_has (arsinh : ℚ → ℚ) (df : DF) (sc : ℚ) (pc : List Val)
    (h : df.getCol "predictions" = some pc) :
    gatingPre arsinh df sc = ((df.pop "predictions").2.transformNumeric
      (fun x => arsinh (x / sc))).setCol "predictions" pc := by
  have hh : df.hasCol "predictions" = true := by simp [DF.hasCol, h]
  simp only [gatingPre, DF.copy, hh, if_true]
  simp only [DF.pop, h]

theorem gatingPre_eq_of_not (arsinh : ℚ → ℚ) (df : DF) (sc : ℚ)
    (h : ¬ df.hasCol "predictions" = true) :
    gatingPre arsinh df sc = df.transformNumeric (fun x => arsinh (x / sc)) := by
  have h2 : df.hasCol "predictions" = false := by simpa using h
  simp [gatingPre, DF.copy, h2]

theorem gatingPre_nrows (arsinh : ℚ → ℚ) (df : DF) (sc : ℚ) :
    (gatingPre arsinh df sc).nrows = df.nrows := by
  by_cases hh : df.hasCol "predictions" = true
  · obtain ⟨pc, hpc⟩ := Option.isSome_iff_exists.mp hh
    rw [gatingPre_eq_of_has _ _ _ _ hpc, DF.nrows_setCol, DF.nrows_transformNumeric,
      DF.nrows_pop]
  · rw [gatingPre_eq_of_not _ _ _ hh, DF.nrows_transformNumeric]

theorem gatingPre_WF (arsinh : ℚ → ℚ) (df : DF) (sc : ℚ) (hwf : df.WF) :
    (gatingPre arsinh df sc).WF := by
  by_cases hh : df.hasCol "predictions" = true
  · obtain ⟨pc, hpc⟩ := Option.isSome_iff_exists.mp hh
    rw [gatingPre_eq_of_has _ _ _ _ hpc]
    apply DF.WF_setCol
    · exact DF.WF_transformNumeric _ _ (DF.WF_pop _ _ hwf)
    · rw [DF.nrows_transformNumeric, DF.nrows_pop]
      exact DF.getCol_length df _ pc hwf hpc
  · rw [gatingPre_eq_of_not _ _ _ hh]
    exact DF.WF_transformNumeric _ _ hwf

theorem gatingPre_hasCol (arsinh : ℚ → ℚ) (df : DF) (sc : ℚ) (name : String)
    (h : df.hasCol name = true) : (gatingPre arsinh df sc).hasCol name = true := by
  have hx : ∃ cc, df.getCol name = some cc := Option.isSome_iff_exists.mp h
  obtain ⟨cc, hcc⟩ := hx
  by_cases hh : df.hasCol "predictions" = true
  · obtain ⟨pc, hpc⟩ := Option.isSome_iff_exists.mp hh
    rw [gatingPre_eq_of_has _ _ _ _ hpc]
    by_cases he : name = "predictions"
    · subst he
      unfold DF.hasCol
      rw [DF.getCol_setCol_self]
      rfl
    · unfold DF.hasCol
      rw [DF.getCol_setCol_ne _ _ _ _ he, DF.getCol_transformNumeric,
        DF.getCol_pop_ne _ _ _ he, hcc]
      rfl
  · rw [gatingPre_eq_of_not _ _ _ hh]
    unfold DF.hasCol
    rw [DF.getCol_transformNumeric, hcc]
    rfl

theorem gatingStain1_ok (g : DF) (labels : List String) (s1 rel : String) (t : ℚ)
    (g2 : DF) (l2 : List String)
    (h : gatingStain1 g labels (some s1) rel t = .ok (g2, l2)) :
    g2 = primaryGate g s1 rel t "dead" ∧ l2 = labels ++ ["dead"] := by
  simp only [gatingStain1] at h
  rcases hs : stain_sannity_check (primaryGate g s1 rel t "dead") "dead" s1 rel t with e | u
  · rw [hs] at h
    simp at h
  · rw [hs] at h
    simp only [Except.ok.injEq, Prod.mk.injEq] at h
    exact ⟨h.1.symm, h.2.symm⟩

theorem gatingStain2_ok (g : DF) (labels : List String) (s2 rel : String) (t : ℚ)
    (g2 : DF) (l2 : List String)
    (h : gatingStain2 g labels (some s2) rel t = .ok (g2, l2)) :
    g2 = primaryGate g s2 rel t "cell" ∧ l2 = labels ++ ["cell"] := by
  simp only [gatingStain2] at h
  rcases hs : stain_sannity_check (primaryGate g s2 rel t "cell") "cell" s2 rel t with e | u
  · rw [hs] at h
    simp at h
  · rw [hs] at h
    simp only [Except.ok.injEq, Prod.mk.injEq] at h
    exact ⟨h.1.symm, h.2.symm⟩

theorem gateExtraOne_ok (df : DF) (labels : List String) (st : ExtraStain)
    (df2 : DF) (l2 : List String) (h : gateExtraOne df labels st = .ok (df2, l2)) :
    (∀ name, name ≠ st.label → df2.getCol name = df.getCol name) ∧
    l2 = labels ++ [st.label] := by
  simp only [gateExtraOne] at h
  rcases hs : stain_sannity_check
      (df.setCol st.label ((if st.sign = ">" then
          colGT ((df.getCol st.channel).getD []) st.threshold
        else colLT ((df.getCol st.channel).getD []) st.threshold).map Val.bool))
      st.label st.channel st.sign st.threshold with e | u
  · rw [hs] at h
    simp at h
  · rw [hs] at h
    simp only [Except.ok.injEq, Prod.mk.injEq] at h
    refine ⟨?_, h.2.symm⟩
    intro name hn
    rw [← h.1, DF.getCol_setCol_ne _ _ _ _ hn]

theorem gateExtraList_ok_labels (ex : List ExtraStain) :
    ∀ (df : DF) (labels : List String) (g : DF) (l2 : List String),
    gateExtraList df labels ex = .ok (g, l2) →
    l2 = labels ++ ex.map (fun st => st.label) := by
  induction ex with
  | nil =>
      intro df labels g l2 h
      simp only [gateExtraList, Except.ok.injEq, Prod.mk.injEq] at h
      simp [← h.2]
  | cons st rest ih =>
      intro df labels g l2 h
      simp only [gateExtraList] at h
      rcases ho : gateExtraOne df labels st with e | r
      · rw [ho] at h
        simp at h
      · rw [ho] at h
        have hr := ih r.1 r.2 g l2 h
        obtain ⟨_, hl⟩ := gateExtraOne_ok df labels st r.1 r.2 (by rw [ho])
        rw [hr, hl]
        simp

theorem gateExtraList_getCol_preserved (ex : List ExtraStain) :
    ∀ (df : DF) (labels : List String) (g : DF) (l2 : List String) (name : String),
    (∀ st ∈ ex, st.label ≠ name) → gateExtraList df labels ex = .ok (g, l2) →
    g.getCol name = df.getCol name := by
  induction ex with
  | nil =>
      intro df labels g l2 name _ h
      simp only [gateExtraList, Except.ok.injEq, Prod.mk.injEq] at h
      rw [← h.1]
  | cons st rest ih =>
      intro df labels g l2 name hn h
      simp only [gateExtraList] at h
      rcases ho : gateExtraOne df labels st with e | r
      · rw [ho] at h
        simp at h
      · rw [ho] at h
        have h1 := ih r.1 r.2 g l2 name (fun s hs => hn s (List.mem_cons_of_mem _ hs)) h
        obtain ⟨hpres, _⟩ := gateExtraOne_ok df labels st r.1 r.2 (by rw [ho])
        rw [h1, hpres name (Ne.symm (hn st (List.mem_cons_self _ _)))]

theorem deriveState_cols (df : DF) (db cb : List Bool)
    (hd : df.getCol "dead" = some (db.map Val.bool))
    (hc : df.getCol "cell" = some (cb.map Val.bool))
    (hdb : db.length = df.nrows) (hcb : cb.length = df.nrows) :
    (deriveState df).getCol "state" = some (List.zipWith
      (fun d cc => if cc then (if d then Val.str "inactive" else Val.str "live")
        else Val.str "debris") db cb) ∧
    (∀ name, name ≠ "state" → (deriveState df).getCol name = df.getCol name) := by
  have hsd1 : (df.setCol "state" (List.replicate df.nrows (.str "debris"))).getCol "dead" =
      some (db.map Val.bool) := by
    rw [DF.getCol_setCol_ne _ _ _ _ (by decide)]
    exact hd
  have hsc1 : (df.setCol "state" (List.replicate df.nrows (.str "debris"))).getCol "cell" =
      some (cb.map Val.bool) := by
    rw [DF.getCol_setCol_ne _ _ _ _ (by decide)]
    exact hc
  have hss1 : (df.setCol "state" (List.replicate df.nrows (.str "debris"))).getCol "state" =
      some (List.replicate df.nrows (.str "debris")) := DF.getCol_setCol_self _ _ _
  have hfun1 : (fun (a b : Bool) => (Val.bool a == Val.bool false && Val.bool b == Val.bool true)) =
      fun a b => !a && b := by
    funext a b
    cases a <;> cases b <;> rfl
  have hfun2 : (fun (a b : Bool) => (Val.bool a == Val.bool true && Val.bool b == Val.bool true)) =
      fun a b => a && b := by
    funext a b
    cases a <;> cases b <;> rfl
  simp only [deriveState]
  rw [hsd1, hsc1]
  simp only [Option.getD_some]
  rw [List.zipWith_map, hfun1]
  have hss2 : ((df.setCol "state" (List.replicate df.nrows (.str "debris"))).locSet
      (List.zipWith (fun a b => !a && b) db cb) "state" (.str "live")).getCol "state" =
      some (maskSet (List.replicate df.nrows (.str "debris"))
        (List.zipWith (fun a b => !a && b) db cb) (.str "live")) :=
    DF.getCol_locSet_self _ _ _ _ _ hss1
  have hsd2 : ((df.setCol "state" (List.replicate df.nrows (.str "debris"))).locSet
      (List.zipWith (fun a b => !a && b) db cb) "state" (.str "live")).getCol "dead" =
      some (db.map Val.bool) := by
    rw [DF.getCol_locSet_ne _ _ _ _ _ (by decide)]
    exact hsd1
  have hsc2 : ((df.setCol "state" (List.replicate df.nrows (.str "debris"))).locSet
      (List.zipWith (fun a b => !a && b) db cb) "state" (.str "live")).getCol "cell" =
      some (cb.map Val.bool) := by
    rw [DF.getCol_locSet_ne _ _ _ _ _ (by decide)]
    exact hsc1
  rw [hsd2, hsc2]
  simp only [Option.getD_some]
  rw [List.zipWith_map, hfun2]
  constructor
  · rw [DF.getCol_locSet_self _ _ _ _ _ hss2]
    rw [state_mask_combine db cb df.nrows hdb hcb]
  · intro name hn
    rw [DF.getCol_locSet_ne _ _ _ _ _ hn, DF.getCol_locSet_ne _ _ _ _ _ hn,
      DF.getCol_setCol_ne _ _ _ _ hn]

theorem gating_ok_decompose (arsinh : ℚ → ℚ) (df : DF) (s1 r1 : String) (t1 : ℚ)
    (s2 r2 : String) (t2 : ℚ) (c : ℚ) (ex : List ExtraStain)
    (hs1 : s1 ≠ "") (hs2 : s2 ≠ "") (ht2 : t2 ≠ 0) (g : DF) (labels : List String)
    (hok : apply_gatingResult arsinh df (some s1) r1 t1 (some s2) r2 t2 c (some ex) =
      .ok (g, labels)) :
    gateExtraList (deriveState (primaryGate (primaryGate (gatingPre arsinh df c)
      s1 r1 t1 "dead") s2 r2 t2 "cell")) ["dead", "cell", "state"] ex = .ok (g, labels) := by
  simp only [apply_gatingResult, apply_gatingImpl] at hok
  rcases h1 : gatingStain1 (gatingPre arsinh df c) [] (some s1) r1 t1 with e | p1
  · simp only [h1] at hok
    simp at hok
  · simp only [h1] at hok
    obtain ⟨hg1, hl1⟩ := gatingStain1_ok _ _ _ _ _ p1.1 p1.2 (by rw [h1])
    rcases h2 : gatingStain2 p1.1 p1.2 (some s2) r2 t2 with e | p2
    · simp only [h2] at hok
      simp at hok
    · simp only [h2] at hok
      obtain ⟨hg2, hl2⟩ := gatingStain2_ok _ _ _ _ _ p2.1 p2.2 (by rw [h2])
      have hguard : (pyTruthyStr (some s2) && pyTruthyFloat t2 && pyTruthyStr (some s1)) =
          true := by
        simp [pyTruthyStr, pyTruthyFloat, hs1, hs2, ht2]
      simp only [gatingState, hguard, if_true] at hok
      rw [hg2, hg1] at hok
      rw [hl2, hl1] at hok
      simpa using hok

/-! ### Claim theorems -/

/-- C10: `apply_gating` works on a copy of its input: whatever the stain
configuration, the caller's table is exactly what it was before the call
(in particular, `predictions` is popped from the copy only). -/
theorem apply_gating_preserves_input (arsinh : ℚ → ℚ) (df : DF)
    (stain1 : Option String) (r1 : String) (t1 : ℚ)
    (stain2 : Option String) (r2 : String) (t2 : ℚ)
    (c : ℚ) (ex : Option (List ExtraStain)) :
    (apply_gatingImpl arsinh df stain1 r1 t1 stain2 r2 t2 c ex).1 = df := rfl

/-- C5: when the auto sentinel `-1` is supplied, the effective uncertainty
threshold is exactly `0.5 * ln K`. -/
theorem auto_threshold_half_max_entropy (K : ℕ) :
    effectiveThreshold (-1) K = 0.5 * Real.log K := by
  simp [effectiveThreshold, max_entropy]

/-- C2: with at least one known class, the threshold validation rejects a raw
threshold exactly when it lies outside `[0, ln K]` and is not the auto
sentinel `-1`. -/
theorem uncertainty_threshold_validation (K : ℕ) (t : ℝ) (hK : 1 ≤ K) :
    thresholdRejected t K ↔ (¬ (0 ≤ t ∧ t ≤ Real.log K) ∧ t ≠ -1) := by
  have hlog : 0 ≤ Real.log K := Real.log_nonneg (by exact_mod_cast hK)
  unfold thresholdRejected max_entropy
  constructor
  · rintro (⟨hlt, hne⟩ | hgt)
    · exact ⟨fun hx => absurd hlt (not_lt.mpr hx.1), hne⟩
    · refine ⟨fun hx => absurd hgt (not_lt.mpr hx.2), fun he => ?_⟩
      rw [he] at hgt
      linarith
  · rintro ⟨hout, hne⟩
    by_cases hlt : t < 0
    · exact Or.inl ⟨hlt, hne⟩
    · refine Or.inr ?_
      push_neg at hlt
      by_contra hgt
      push_neg at hgt
      exact hout ⟨hlt, hgt⟩

/-- Witness for C2: the sentinel `-1` is accepted for two classes. -/
theorem uncertainty_threshold_validation_witness :
    1 ≤ 2 ∧ (thresholdRejected (-1) 2 ↔
      (¬ ((0:ℝ) ≤ -1 ∧ (-1:ℝ) ≤ Real.log 2) ∧ (-1:ℝ) ≠ -1)) :=
  ⟨by norm_num, uncertainty_threshold_validation 2 (-1) (by norm_num)⟩

/-- C6: the orchestrator hands heterogeneity exactly the `state == "live"`
rows of the gated table when gating ran and `apply_gating`'s returned label
list contains `"state"` (the in-place label removal performed by
`save_gating_results` in between does not affect this), and the full table in
every other case. -/
theorem hetero_input_selection (gating : Bool) (gdf : DF) (labels : List String)
    (pdf : DF) :
    heteroInput gating gdf (saveGatingLabels labels) pdf =
      if gating then
        if "state" ∈ labels then
          gdf.rowFilter (colEqStr ((gdf.getCol "state").getD []) "live")
        else gdf
      else pdf := by
  cases gating with
  | false => simp [heteroInput, DF.copy]
  | true =>
      by_cases h : "state" ∈ labels
      · simp [heteroInput, (state_mem_saveGatingLabels labels).mpr h, h]
      · have hn : "state" ∉ saveGatingLabels labels :=
          fun hx => h ((state_mem_saveGatingLabels labels).mp hx)
        simp [heteroInput, hn, h]

/-- C7: for a non-empty table of non-empty numeric columns, the simple
heterogeneity metric is the mean over columns of each column's range
(`qMax`/`qMin` really are the maximum and minimum of each column); in
particular the single-column table `[1,5,9]` yields `8`. -/
theorem hetero_simple_mean_range (data : List (List ℚ))
    (h1 : data ≠ []) (h2 : ∀ c ∈ data, c ≠ []) :
    (hetero_simple data = (data.map (fun c => qMax c - qMin c)).sum / data.length ∧
      ∀ c ∈ data, (qMax c ∈ c ∧ ∀ x ∈ c, x ≤ qMax c) ∧
        (qMin c ∈ c ∧ ∀ x ∈ c, qMin c ≤ x)) ∧
    hetero_simple [[1, 5, 9]] = 8 := by
  refine ⟨⟨?_, ?_⟩, ?_⟩
  · have hptp : ptp = fun c => qMax c - qMin c := rfl
    simp [hetero_simple, npSumScalar, seriesMean, hptp]
  · intro c hc
    exact ⟨qMax_spec c (h2 c hc), qMin_spec c (h2 c hc)⟩
  · norm_num [hetero_simple, npSumScalar, seriesMean, ptp, qMax, qMin]

/-- Witness for C7: the hypotheses hold for `[[1,5,9]]` and the metric
evaluates to `8` there. -/
theorem hetero_simple_mean_range_witness :
    ([[(1:ℚ), 5, 9]] ≠ []) ∧ (∀ c ∈ [[(1:ℚ), 5, 9]], c ≠ []) ∧
      hetero_simple [[(1:ℚ), 5, 9]] = 8 :=
  ⟨by simp, by simp, (hetero_simple_mean_range [[(1:ℚ), 5, 9]] (by simp) (by simp)).2⟩

/-- C4: the uncertainty filter replaces the predicted label by `"Unknown"`
exactly on the rows whose uncertainty is strictly greater than the effective
threshold, keeps every other predicted label, and modifies neither the
uncertainty column nor any other column. -/
theorem uncertainty_filter_effect (df : DF) (t : ℚ) (us ps : List Val)
    (hu : df.getCol "uncertainties" = some us)
    (hp : df.getCol "predictions" = some ps) :
    (filter_uncertain df t).getCol "uncertainties" = some us ∧
    (∀ name, name ≠ "predictions" →
      (filter_uncertain df t).getCol name = df.getCol name) ∧
    ∃ ps', (filter_uncertain df t).getCol "predictions" = some ps' ∧
      ps'.length = min ps.length us.length ∧
      ∀ (i : ℕ) (hi : i < ps'.length) (hip : i < ps.length) (hiu : i < us.length),
        ps'.get ⟨i, hi⟩ =
          match us.get ⟨i, hiu⟩ with
          | .num q => if t < q then Val.str "Unknown" else ps.get ⟨i, hip⟩
          | _ => ps.get ⟨i, hip⟩ := by
  have hstep : filter_uncertain df t =
      df.setCol "predictions" (maskSet ps (colGT us t) (.str "Unknown")) := by
    unfold filter_uncertain
    rw [hu]
    exact DF.locSet_eq_setCol df _ _ _ ps hp
  refine ⟨?_, ?_, ?_⟩
  · rw [hstep, DF.getCol_setCol_ne _ _ _ _ (by decide), hu]
  · intro name hname
    rw [hstep, DF.getCol_setCol_ne _ _ _ _ hname]
  · refine ⟨maskSet ps (colGT us t) (.str "Unknown"), ?_, ?_, ?_⟩
    · rw [hstep, DF.getCol_setCol_self]
    · simp [maskSet, colGT]
    · intro i hi hip hiu
      have hmi : i < (colGT us t).length := by simpa [colGT] using hiu
      have hstep2 : (maskSet ps (colGT us t) (Val.str "Unknown")).get ⟨i, hi⟩ =
          (fun old b => if b then Val.str "Unknown" else old)
            (ps.get ⟨i, hip⟩) ((colGT us t).get ⟨i, hmi⟩) := by
        simp [maskSet]
      have hmask : (colGT us t).get ⟨i, hmi⟩ =
          (match us.get ⟨i, hiu⟩ with
           | .num q => decide (t < q)
           | _ => false) := by
        simp [colGT]
      rw [hstep2, hmask]
      rcases hq : us.get ⟨i, hiu⟩ with q | b | s
      · by_cases ht : t < q <;> simp [ht]
      · simp
      · simp

/-- Witness for C4: on a concrete two-row frame with threshold `1/2`, row 0
(uncertainty 1) is relabelled and row 1 (uncertainty 0) is kept. -/
theorem uncertainty_filter_effect_witness :
    (dfUncertain.getCol "uncertainties" = some [.num 1, .num 0]) ∧
    (dfUncertain.getCol "predictions" = some [.str "a", .str "b"]) ∧
    ((filter_uncertain dfUncertain (1/2)).getCol "uncertainties" =
        some [.num 1, .num 0] ∧
      (∀ name, name ≠ "predictions" →
        (filter_uncertain dfUncertain (1/2)).getCol name = dfUncertain.getCol name) ∧
      ∃ ps', (filter_uncertain dfUncertain (1/2)).getCol "predictions" = some ps' ∧
        ps'.length = min 2 2 ∧
        ∀ (i : ℕ) (hi : i < ps'.length) (hip : i < ([Val.str "a", .str "b"]).length)
          (hiu : i < ([Val.num 1, .num 0]).length),
          ps'.get ⟨i, hi⟩ =
            match ([Val.num 1, .num 0]).get ⟨i, hiu⟩ with
            | .num q => if (1/2 : ℚ) < q then Val.str "Unknown"
                        else ([Val.str "a", .str "b"]).get ⟨i, hip⟩
            | _ => ([Val.str "a", .str "b"]).get ⟨i, hip⟩) :=
  ⟨rfl, rfl, uncertainty_filter_effect dfUncertain (1/2) _ _ rfl rfl⟩

/-- Shared concrete gating run: `dfTwoStains` with `arsinh = id`, stain 1
`("A", ">", 0)`, stain 2 `("B", ">", 1)`, no extra stains. -/
theorem dfTwoStains_run :
    apply_gatingResult (fun x => x) dfTwoStains (some "A") ">" 0 (some "B") ">" 1 150
      (some []) = .ok (dfTwoStainsGated, ["dead", "cell", "state"]) := by
  have h0 : gatingPre (fun x => x) dfTwoStains 150 =
      ⟨2, [("A", [.num 2, .num (-2)]), ("B", [.num 2, .num (-2)])]⟩ := by
    simp [gatingPre, DF.copy, DF.hasCol, DF.getCol, DF.pop, lookupCol, dfTwoStains,
      DF.transformNumeric, isNumericCol, isNumCell, mapNum, List.all, List.filter]
    norm_num
  have h1 : gatingStain1 (⟨2, [("A", [.num 2, .num (-2)]), ("B", [.num 2, .num (-2)])]⟩ : DF)
      [] (some "A") ">" 0 =
      .ok (⟨2, [("A", [.num 2, .num (-2)]), ("B", [.num 2, .num (-2)]),
        ("dead", [.bool true, .bool false])]⟩, ["dead"]) := by
    simp [gatingStain1, primaryGate, DF.setCol, DF.hasCol, DF.getCol, lookupCol, DF.locSet,
      maskSet, colGT, List.replicate, stain_sannity_check]
    norm_num
  have h2 : gatingStain2 (⟨2, [("A", [.num 2, .num (-2)]), ("B", [.num 2, .num (-2)]),
        ("dead", [.bool true, .bool false])]⟩ : DF) ["dead"] (some "B") ">" 1 =
      .ok (⟨2, [("A", [.num 2, .num (-2)]), ("B", [.num 2, .num (-2)]),
        ("dead", [.bool true, .bool false]), ("cell", [.bool true, .bool false])]⟩,
        ["dead", "cell"]) := by
    simp [gatingStain2, primaryGate, DF.setCol, DF.hasCol, DF.getCol, lookupCol, DF.locSet,
      maskSet, colGT, List.replicate, stain_sannity_check]
    norm_num
  have h3 : deriveState (⟨2, [("A", [.num 2, .num (-2)]), ("B", [.num 2, .num (-2)]),
        ("dead", [.bool true, .bool false]), ("cell", [.bool true, .bool false])]⟩ : DF) =
      dfTwoStainsGated := by
    simp [deriveState, DF.setCol, DF.hasCol, DF.getCol, lookupCol, DF.locSet,
      maskSet, List.replicate, dfTwoStainsGated]
  simp only [apply_gatingResult, apply_gatingImpl, h0, h1, h2]
  simp [gatingState, pyTruthyStr, pyTruthyFloat, h3, gateExtraList]

/-- Well-formedness of the concrete two-stain frame. -/
theorem dfTwoStains_WF : dfTwoStains.WF := by
  intro col hc
  simp only [dfTwoStains, List.mem_cons, List.not_mem_nil, or_false] at hc
  rcases hc with h | h <;> simp [h, dfTwoStains]

/-- C1 counterexample: on a frame where both primary stains are configured
and gate properly, but the second stain's threshold is the float `0.0`
(falsy in Python), `apply_gating` succeeds without producing any `state`
column or label, because of the truthiness guard
`if stain2 and stain2_threshold and stain1`. -/
theorem state_guard_counterexample :
    apply_gatingResult (fun x => x) dfThresholdZero (some "A") ">" 0 (some "B") ">" 0 150
        none =
      .ok (⟨2, [("A", [.num 2, .num (-2)]), ("B", [.num 1, .num (-1)]),
        ("dead", [.bool true, .bool false]), ("cell", [.bool true, .bool false])]⟩,
        ["dead", "cell"]) ∧
    "state" ∉ (["dead", "cell"] : List String) ∧
    (⟨2, [("A", [.num 2, .num (-2)]), ("B", [.num 1, .num (-1)]),
      ("dead", [.bool true, .bool false]), ("cell", [.bool true, .bool false])]⟩ :
        DF).hasCol "state" = false := by
  refine ⟨?_, by simp, by simp [DF.hasCol, DF.getCol, lookupCol]⟩
  have h0 : gatingPre (fun x => x) dfThresholdZero 150 =
      ⟨2, [("A", [.num 2, .num (-2)]), ("B", [.num 1, .num (-1)])]⟩ := by
    simp [gatingPre, DF.copy, DF.hasCol, DF.getCol, DF.pop, lookupCol, dfThresholdZero,
      DF.transformNumeric, isNumericCol, isNumCell, mapNum, List.all, List.filter]
    norm_num
  have h1 : gatingStain1 (⟨2, [("A", [.num 2, .num (-2)]), ("B", [.num 1, .num (-1)])]⟩ : DF)
      [] (some "A") ">" 0 =
      .ok (⟨2, [("A", [.num 2, .num (-2)]), ("B", [.num 1, .num (-1)]),
        ("dead", [.bool true, .bool false])]⟩, ["dead"]) := by
    simp [gatingStain1, primaryGate, DF.setCol, DF.hasCol, DF.getCol, lookupCol, DF.locSet,
      maskSet, colGT, List.replicate, stain_sannity_check]
    norm_num
  have h2 : gatingStain2 (⟨2, [("A", [.num 2, .num (-2)]), ("B", [.num 1, .num (-1)]),
        ("dead", [.bool true, .bool false])]⟩ : DF) ["dead"] (some "B") ">" 0 =
      .ok (⟨2, [("A", [.num 2, .num (-2)]), ("B", [.num 1, .num (-1)]),
        ("dead", [.bool true, .bool false]), ("cell", [.bool true, .bool false])]⟩,
        ["dead", "cell"]) := by
    simp [gatingStain2, primaryGate, DF.setCol, DF.hasCol, DF.getCol, lookupCol, DF.locSet,
      maskSet, colGT, List.replicate, stain_sannity_check]
    norm_num
  simp only [apply_gatingResult, apply_gatingImpl, h0, h1, h2]
  simp [gatingState, pyTruthyStr, pyTruthyFloat]

/-- C1 (amended): in every successful gating call in which both primary
stains are configured with nonempty channel names and the second stain's
threshold is nonzero (truthy), and no extra stain reuses the reserved labels,
the gated frame carries boolean `dead`/`cell` columns and a `state` column
assigned row-wise as: `cell = True` → `"live"` if `dead = False`,
`"inactive"` if `dead = True`; `cell = False` → `"debris"` regardless of
`dead`. -/
theorem apply_gating_state_derivation (arsinh : ℚ → ℚ) (df : DF) (hwf : df.WF)
    (s1 r1 : String) (t1 : ℚ) (s2 r2 : String) (t2 : ℚ) (c : ℚ) (ex : List ExtraStain)
    (hs1 : s1 ≠ "") (hs2 : s2 ≠ "") (ht2 : t2 ≠ 0)
    (hc1 : df.hasCol s1 = true) (hc2 : df.hasCol s2 = true)
    (hex : ∀ st ∈ ex, st.label ≠ "dead" ∧ st.label ≠ "cell" ∧ st.label ≠ "state")
    (g : DF) (labels : List String)
    (hok : apply_gatingResult arsinh df (some s1) r1 t1 (some s2) r2 t2 c (some ex) =
      .ok (g, labels)) :
    ∃ db cb : List Bool, db.length = df.nrows ∧ cb.length = df.nrows ∧
      g.getCol "dead" = some (db.map Val.bool) ∧
      g.getCol "cell" = some (cb.map Val.bool) ∧
      g.getCol "state" = some (List.zipWith
        (fun d cc => if cc then (if d then Val.str "inactive" else Val.str "live")
          else Val.str "debris") db cb) := by
  have hd := gating_ok_decompose arsinh df s1 r1 t1 s2 r2 t2 c ex hs1 hs2 ht2 g labels hok
  have hwf0 : (gatingPre arsinh df c).WF := gatingPre_WF _ _ _ hwf
  have hn0 : (gatingPre arsinh df c).nrows = df.nrows := gatingPre_nrows _ _ _
  have hch1 : (gatingPre arsinh df c).hasCol s1 = true := gatingPre_hasCol _ _ _ _ hc1
  have hch2 : (gatingPre arsinh df c).hasCol s2 = true := gatingPre_hasCol _ _ _ _ hc2
  obtain ⟨db, hdb, hdead⟩ := primaryGate_label_col (gatingPre arsinh df c) s1 r1 t1 "dead"
    hwf0 hch1
  have hwfA : (primaryGate (gatingPre arsinh df c) s1 r1 t1 "dead").WF :=
    primaryGate_WF _ _ _ _ _ hwf0 hch1
  have hnA : (primaryGate (gatingPre arsinh df c) s1 r1 t1 "dead").nrows =
      (gatingPre arsinh df c).nrows := primaryGate_nrows _ _ _ _ _
  have hchA2 : (primaryGate (gatingPre arsinh df c) s1 r1 t1 "dead").hasCol s2 = true :=
    primaryGate_hasCol_of _ _ _ _ _ _ hch2
  obtain ⟨cb, hcb, hcell⟩ := primaryGate_label_col
    (primaryGate (gatingPre arsinh df c) s1 r1 t1 "dead") s2 r2 t2 "cell" hwfA hchA2
  have hdeadB : (primaryGate (primaryGate (gatingPre arsinh df c) s1 r1 t1 "dead")
      s2 r2 t2 "cell").getCol "dead" = some (db.map Val.bool) := by
    rw [primaryGate_getCol_ne _ _ _ _ _ _ (by decide)]
    exact hdead
  have hnB : (primaryGate (primaryGate (gatingPre arsinh df c) s1 r1 t1 "dead")
      s2 r2 t2 "cell").nrows = df.nrows := by
    rw [primaryGate_nrows, hnA, hn0]
  have hdb2 : db.length = (primaryGate (primaryGate (gatingPre arsinh df c) s1 r1 t1 "dead")
      s2 r2 t2 "cell").nrows := by
    rw [hnB, ← hn0]
    exact hdb
  have hcb2 : cb.length = (primaryGate (primaryGate (gatingPre arsinh df c) s1 r1 t1 "dead")
      s2 r2 t2 "cell").nrows := by
    rw [hnB, ← hn0, ← hnA]
    exact hcb
  obtain ⟨hstate, hpres⟩ := deriveState_cols
    (primaryGate (primaryGate (gatingPre arsinh df c) s1 r1 t1 "dead") s2 r2 t2 "cell")
    db cb hdeadB hcell hdb2 hcb2
  have hgd : g.getCol "dead" = some (db.map Val.bool) := by
    rw [gateExtraList_getCol_preserved ex _ _ g labels "dead"
      (fun st hst => (hex st hst).1) hd]
    rw [hpres "dead" (by decide)]
    exact hdeadB
  have hgc : g.getCol "cell" = some (cb.map Val.bool) := by
    rw [gateExtraList_getCol_preserved ex _ _ g labels "cell"
      (fun st hst => (hex st hst).2.1) hd]
    rw [hpres "cell" (by decide)]
    exact hcell
  have hgs : g.getCol "state" = some (List.zipWith
      (fun d cc => if cc then (if d then Val.str "inactive" else Val.str "live")
        else Val.str "debris") db cb) := by
    rw [gateExtraList_getCol_preserved ex _ _ g labels "state"
      (fun st hst => (hex st hst).2.2) hd]
    exact hstate
  refine ⟨db, cb, ?_, ?_, hgd, hgc, hgs⟩
  · rw [hdb, hn0]
  · rw [hcb, hnA, hn0]

/-- Witness for C1 (amended): the concrete two-stain run satisfies the
hypotheses, and its `state` column follows the truth table
(`[inactive, debris]` for `dead = [T,F]`, `cell = [T,F]`). -/
theorem apply_gating_state_derivation_witness :
    dfTwoStains.WF ∧ ("A" : String) ≠ "" ∧ ("B" : String) ≠ "" ∧ (1 : ℚ) ≠ 0 ∧
    dfTwoStains.hasCol "A" = true ∧ dfTwoStains.hasCol "B" = true ∧
    (∃ db cb : List Bool, db.length = dfTwoStains.nrows ∧ cb.length = dfTwoStains.nrows ∧
      dfTwoStainsGated.getCol "dead" = some (db.map Val.bool) ∧
      dfTwoStainsGated.getCol "cell" = some (cb.map Val.bool) ∧
      dfTwoStainsGated.getCol "state" = some (List.zipWith
        (fun d cc => if cc then (if d then Val.str "inactive" else Val.str "live")
          else Val.str "debris") db cb)) :=
  ⟨dfTwoStains_WF, by decide, by decide, by norm_num,
    by simp [DF.hasCol, DF.getCol, lookupCol, dfTwoStains],
    by simp [DF.hasCol, DF.getCol, lookupCol, dfTwoStains],
    apply_gating_state_derivation (fun x => x) dfTwoStains dfTwoStains_WF "A" ">" 0 "B" ">" 1
      150 [] (by decide) (by decide) (by norm_num)
      (by simp [DF.hasCol, DF.getCol, lookupCol, dfTwoStains])
      (by simp [DF.hasCol, DF.getCol, lookupCol, dfTwoStains])
      (by simp) dfTwoStainsGated ["dead", "cell", "state"] dfTwoStains_run⟩

/-- C3: a stain gate whose boolean column lacks a `True` or a `False` makes
the gating operation fail with an error carrying the configured channel,
relation and threshold and the channel's observed minimum and maximum; in
particular, gating the channel `[1,2,3,4,5]` with relation `>` and threshold
`10` raises this error (all-`False` gate), for any monotone transform
bounded above by the identity on nonnegatives (as the real `arcsinh` is). -/
theorem stain_gate_sanity_check (arsinh : ℚ → ℚ) (hmono : Monotone arsinh)
    (hle : ∀ x : ℚ, 0 ≤ x → arsinh x ≤ x) :
    (∀ (df : DF) (label channel sign : String) (t : ℚ),
      (Val.bool true ∉ (df.getCol label).getD [] ∨
        Val.bool false ∉ (df.getCol label).getD []) →
      stain_sannity_check df label channel sign t =
        .error ⟨channel, sign, t, df.chanMin channel, df.chanMax channel⟩) ∧
    apply_gatingResult arsinh dfFive (some "ch") ">" 10 none "" 0 150 none =
      .error ⟨"ch", ">", 10, arsinh (1/150), arsinh (5/150)⟩ := by
  constructor
  · intro df label channel sign t h
    simp only [stain_sannity_check]
    rw [if_pos h]
  · have h0 : gatingPre arsinh dfFive 150 =
        ⟨5, [("ch", [.num (arsinh (1/150)), .num (arsinh (2/150)), .num (arsinh (3/150)),
          .num (arsinh (4/150)), .num (arsinh (5/150))])]⟩ := by
      simp [gatingPre, DF.copy, DF.hasCol, DF.getCol, DF.pop, lookupCol, dfFive,
        DF.transformNumeric, isNumericCol, isNumCell, mapNum, List.all, List.filter]
    have hnot : ∀ k : ℚ, 0 ≤ k → k ≤ 5 → ¬ ((10:ℚ) < arsinh (k/150)) := by
      intro k h0k h5k
      push_neg
      have hb := hle (k/150) (by positivity)
      linarith
    have hn1 : ¬ ((10:ℚ) < arsinh 150⁻¹) := by
      have := hnot 1 (by norm_num) (by norm_num)
      rwa [one_div] at this
    have e12 : min (arsinh 150⁻¹) (arsinh (2/150)) = arsinh 150⁻¹ :=
      min_eq_left (hmono (by norm_num))
    have e13 : min (arsinh 150⁻¹) (arsinh (3/150)) = arsinh 150⁻¹ :=
      min_eq_left (hmono (by norm_num))
    have e14 : min (arsinh 150⁻¹) (arsinh (4/150)) = arsinh 150⁻¹ :=
      min_eq_left (hmono (by norm_num))
    have e15 : min (arsinh 150⁻¹) (arsinh (5/150)) = arsinh 150⁻¹ :=
      min_eq_left (hmono (by norm_num))
    have f12 : max (arsinh 150⁻¹) (arsinh (2/150)) = arsinh (2/150) :=
      max_eq_right (hmono (by norm_num))
    have f23 : max (arsinh (2/150)) (arsinh (3/150)) = arsinh (3/150) :=
      max_eq_right (hmono (by norm_num))
    have f34 : max (arsinh (3/150)) (arsinh (4/150)) = arsinh (4/150) :=
      max_eq_right (hmono (by norm_num))
    have f45 : max (arsinh (4/150)) (arsinh (5/150)) = arsinh (5/150) :=
      max_eq_right (hmono (by norm_num))
    have h1 : gatingStain1 (⟨5, [("ch", [.num (arsinh (1/150)), .num (arsinh (2/150)),
          .num (arsinh (3/150)), .num (arsinh (4/150)), .num (arsinh (5/150))])]⟩ : DF)
        [] (some "ch") ">" 10 = .error ⟨"ch", ">", 10, arsinh (1/150), arsinh (5/150)⟩ := by
      simp [gatingStain1, primaryGate, DF.setCol, DF.hasCol, DF.getCol, lookupCol, DF.locSet,
        maskSet, colGT, List.replicate, stain_sannity_check, DF.chanMin, DF.chanMax, colNums,
        qMin, qMax, hn1, hnot 2 (by norm_num) (by norm_num),
        hnot 3 (by norm_num) (by norm_num), hnot 4 (by norm_num) (by norm_num),
        hnot 5 (by norm_num) (by norm_num), e12, e13, e14, e15, f12, f23, f34, f45]
    simp only [apply_gatingResult, apply_gatingImpl, h0, h1]

/-- Witness for C3: the identity transform is monotone and bounded by the
identity, and the concrete `[1,2,3,4,5]`, `>`, `10` gate raises the error. -/
theorem stain_gate_sanity_check_witness :
    Monotone (fun x : ℚ => x) ∧ (∀ x : ℚ, 0 ≤ x → (fun x : ℚ => x) x ≤ x) ∧
    apply_gatingResult (fun x => x) dfFive (some "ch") ">" 10 none "" 0 150 none =
      .error ⟨"ch", ">", 10, 1/150, 5/150⟩ :=
  ⟨fun _ _ h => h, fun _ _ => le_refl _, by
    have h := (stain_gate_sanity_check (fun x => x) (fun _ _ h => h)
      (fun _ _ => le_refl _)).2
    simpa using h⟩

/-- C8 counterexample: `apply_gating`'s own returned label list does contain
the raw `"dead"` (and `"cell"`) labels even when both primary stains are
present and `state` was produced; they are only removed later inside
`save_gating_results`. -/
theorem gating_labels_counterexample :
    apply_gatingResult (fun x => x) dfTwoStains (some "A") ">" 0 (some "B") ">" 1 150
      (some []) = .ok (dfTwoStainsGated, ["dead", "cell", "state"]) ∧
    "dead" ∈ (["dead", "cell", "state"] : List String) :=
  ⟨dfTwoStains_run, by simp⟩

/-- C8 (amended): in a successful gating call with both primary stains
configured (nonempty channels, truthy second threshold), `apply_gating`
returns the label list `dead, cell, state` followed by the extra-stain
labels; the removal performed by `save_gating_results` then leaves exactly
`state` followed by the extra-stain labels, so consumers downstream of it
never see the raw primary `dead`/`cell` labels. -/
theorem gating_labels_after_save (arsinh : ℚ → ℚ) (df : DF) (s1 r1 : String) (t1 : ℚ)
    (s2 r2 : String) (t2 : ℚ) (c : ℚ) (ex : List ExtraStain)
    (hs1 : s1 ≠ "") (hs2 : s2 ≠ "") (ht2 : t2 ≠ 0) (g : DF) (labels : List String)
    (hok : apply_gatingResult arsinh df (some s1) r1 t1 (some s2) r2 t2 c (some ex) =
      .ok (g, labels)) :
    labels = "dead" :: "cell" :: "state" :: ex.map (fun st => st.label) ∧
    saveGatingLabels labels = "state" :: ex.map (fun st => st.label) := by
  have hd := gating_ok_decompose arsinh df s1 r1 t1 s2 r2 t2 c ex hs1 hs2 ht2 g labels hok
  have hl := gateExtraList_ok_labels ex _ _ g labels hd
  have hl2 : labels = "dead" :: "cell" :: "state" :: ex.map (fun st => st.label) := by
    simpa using hl
  refine ⟨hl2, ?_⟩
  rw [hl2]
  rw [saveGatingLabels, if_pos (by simp)]
  simp

/-- Witness for C8 (amended): for the concrete two-stain run the returned
list is `["dead", "cell", "state"]` and the post-save list is `["state"]`. -/
theorem gating_labels_after_save_witness :
    (("A" : String) ≠ "" ∧ ("B" : String) ≠ "" ∧ (1 : ℚ) ≠ 0) ∧
    ((["dead", "cell", "state"] : List String) =
      "dead" :: "cell" :: "state" :: ([] : List ExtraStain).map (fun st => st.label) ∧
    saveGatingLabels ["dead", "cell", "state"] =
      "state" :: ([] : List ExtraStain).map (fun st => st.label)) :=
  ⟨⟨by decide, by decide, by norm_num⟩,
    gating_labels_after_save (fun x => x) dfTwoStains "A" ">" 0 "B" ">" 1 150 []
      (by decide) (by decide) (by norm_num) dfTwoStainsGated ["dead", "cell", "state"]
      dfTwoStains_run⟩

/-! ### Entropy support lemmas -/

theorem negMulLog_linear_diff (K : ℕ) (hK : (0:ℝ) < K) (x : ℝ) (hx : 0 < x) :
    (x * Real.log K + ((K:ℝ)⁻¹ - x)) - Real.negMulLog x =
      x * (((x * K)⁻¹ - 1) - Real.log (x * K)⁻¹) := by
  rw [Real.log_inv, Real.log_mul (ne_of_gt hx) (ne_of_gt hK), Real.negMulLog, mul_inv]
  have hx0 : x ≠ 0 := ne_of_gt hx
  field_simp
  ring

theorem negMulLog_le_linear (K : ℕ) (hK : (0:ℝ) < K) (x : ℝ) (hx : 0 ≤ x) :
    Real.negMulLog x ≤ x * Real.log K + ((K:ℝ)⁻¹ - x) := by
  rcases eq_or_lt_of_le hx with h0 | h0
  · rw [← h0]
    simp [Real.negMulLog_zero]
  · have hxK : 0 < x * (K:ℝ) := by positivity
    have hlog := Real.log_le_sub_one_of_pos (inv_pos.mpr hxK)
    have hd := negMulLog_linear_diff K hK x h0
    have : 0 ≤ (x * Real.log K + ((K:ℝ)⁻¹ - x)) - Real.negMulLog x := by
      rw [hd]
      exact mul_nonneg (le_of_lt h0) (by linarith)
    linarith

theorem negMulLog_eq_linear (K : ℕ) (hK : (0:ℝ) < K) (x : ℝ) (hx : 0 ≤ x)
    (heq : Real.negMulLog x = x * Real.log K + ((K:ℝ)⁻¹ - x)) : x = (K:ℝ)⁻¹ := by
  rcases eq_or_lt_of_le hx with h0 | h0
  · exfalso
    rw [← h0] at heq
    simp [Real.negMulLog_zero] at heq
    have hpos : (0:ℝ) < (K:ℝ)⁻¹ := inv_pos.mpr hK
    linarith
  · have hxK : 0 < x * (K:ℝ) := by positivity
    have hd := negMulLog_linear_diff K hK x h0
    have hzero : x * (((x * K)⁻¹ - 1) - Real.log (x * K)⁻¹) = 0 := by
      rw [← hd, heq]
      ring
    have hfac : ((x * (K:ℝ))⁻¹ - 1) - Real.log (x * K)⁻¹ = 0 := by
      rcases mul_eq_zero.mp hzero with h | h
      · exact absurd h (ne_of_gt h0)
      · exact h
    by_cases hone : (x * (K:ℝ))⁻¹ = 1
    · have hxK1 : x * (K:ℝ) = 1 := inv_eq_one.mp hone
      have hKne : (K:ℝ) ≠ 0 := ne_of_gt hK
      field_simp
      linarith
    · have hstrict := Real.log_lt_sub_one_of_pos (inv_pos.mpr hxK) hone
      linarith

/-- C9: for every probability distribution over the K known classes
(nonnegative, summing to 1), the scipy entropy lies in `[0, ln K]`, is `0`
exactly for one-hot distributions, and is `ln K` exactly for the uniform
distribution. -/
theorem entropy_bounds_onehot_uniform {K : ℕ} (p : Fin K → ℝ)
    (hp : ∀ i, 0 ≤ p i) (hsum : ∑ i, p i = 1) :
    (0 ≤ scipyEntropy p ∧ scipyEntropy p ≤ Real.log K) ∧
    (scipyEntropy p = 0 ↔ ∃ j, p j = 1 ∧ ∀ i, i ≠ j → p i = 0) ∧
    (scipyEntropy p = Real.log K ↔ ∀ i, p i = 1 / K) := by
  have hKpos : 0 < K := by
    rcases Nat.eq_zero_or_pos K with h0 | h0
    · subst h0
      simp at hsum
    · exact h0
  have hKr : (0:ℝ) < K := by exact_mod_cast hKpos
  have hE : scipyEntropy p = ∑ i, Real.negMulLog (p i) := by
    simp [scipyEntropy, hsum]
  have hple : ∀ i, p i ≤ 1 := by
    intro i
    calc p i ≤ ∑ j, p j := Finset.single_le_sum (fun j _ => hp j) (Finset.mem_univ i)
    _ = 1 := hsum
  have hterm_nonneg : ∀ i, 0 ≤ Real.negMulLog (p i) := fun i =>
    Real.negMulLog_nonneg (hp i) (hple i)
  have hlb : 0 ≤ scipyEntropy p := by
    rw [hE]
    exact Finset.sum_nonneg (fun i _ => hterm_nonneg i)
  have hgap_nonneg : ∀ i, 0 ≤ (p i * Real.log K + ((K:ℝ)⁻¹ - p i)) - Real.negMulLog (p i) :=
    fun i => sub_nonneg.mpr (negMulLog_le_linear K hKr (p i) (hp i))
  have hgap_sum : ∑ i, ((p i * Real.log K + ((K:ℝ)⁻¹ - p i)) - Real.negMulLog (p i)) =
      Real.log K - scipyEntropy p := by
    rw [hE, Finset.sum_sub_distrib]
    congr 1
    rw [Finset.sum_add_distrib, ← Finset.sum_mul, hsum, one_mul, Finset.sum_sub_distrib,
      hsum, Finset.sum_const, Finset.card_univ, Fintype.card_fin, nsmul_eq_mul,
      mul_inv_cancel₀ (ne_of_gt hKr)]
    ring
  have hub : scipyEntropy p ≤ Real.log K := by
    have h0 : 0 ≤ Real.log K - scipyEntropy p := by
      rw [← hgap_sum]
      exact Finset.sum_nonneg (fun i _ => hgap_nonneg i)
    linarith
  refine ⟨⟨hlb, hub⟩, ?_, ?_⟩
  · constructor
    · intro h0
      rw [hE] at h0
      have hall := (Finset.sum_eq_zero_iff_of_nonneg (fun i _ => hterm_nonneg i)).mp h0
      have hbin : ∀ i, p i = 0 ∨ p i = 1 := by
        intro i
        have hz := hall i (Finset.mem_univ i)
        have hz2 : p i * Real.log (p i) = 0 := by
          have h3 := hz
          simp only [Real.negMulLog_eq_neg] at h3
          linarith
        rcases mul_eq_zero.mp hz2 with h | h
        · exact Or.inl h
        · rcases Real.log_eq_zero.mp h with h1 | h1 | h1
          · exact Or.inl h1
          · exact Or.inr h1
          · exfalso
            have := hp i
            rw [h1] at this
            linarith
      have hex : ∃ j, p j ≠ 0 := by
        by_contra hno
        push_neg at hno
        rw [Finset.sum_congr rfl (fun i _ => hno i)] at hsum
        simp at hsum
      obtain ⟨j, hj⟩ := hex
      have hj1 : p j = 1 := (hbin j).resolve_left hj
      refine ⟨j, hj1, ?_⟩
      intro i hij
      have hsplit : p j + ∑ k in Finset.univ.erase j, p k = 1 := by
        rw [Finset.add_sum_erase _ _ (Finset.mem_univ j)]
        exact hsum
      rw [hj1] at hsplit
      have hz : ∑ k in Finset.univ.erase j, p k = 0 := by linarith
      exact (Finset.sum_eq_zero_iff_of_nonneg (fun k _ => hp k)).mp hz i
        (Finset.mem_erase.mpr ⟨hij, Finset.mem_univ i⟩)
    · rintro ⟨j, hj1, hj0⟩
      rw [hE]
      apply Finset.sum_eq_zero
      intro i _
      by_cases hij : i = j
      · rw [hij, hj1]
        exact Real.negMulLog_one
      · rw [hj0 i hij]
        exact Real.negMulLog_zero
  · constructor
    · intro hlog
      have hz : ∑ i, ((p i * Real.log K + ((K:ℝ)⁻¹ - p i)) - Real.negMulLog (p i)) = 0 := by
        rw [hgap_sum, hlog]
        ring
      have hall := (Finset.sum_eq_zero_iff_of_nonneg (fun i _ => hgap_nonneg i)).mp hz
      intro i
      have hgi := hall i (Finset.mem_univ i)
      have heq : Real.negMulLog (p i) = p i * Real.log K + ((K:ℝ)⁻¹ - p i) := by
        linarith
      rw [negMulLog_eq_linear K hKr (p i) (hp i) heq, one_div]
    · intro huni
      rw [hE]
      have hterm : ∀ i : Fin K, Real.negMulLog (p i) = (1/(K:ℝ)) * Real.log K := by
        intro i
        rw [huni i, Real.negMulLog, one_div, Real.log_inv]
        ring
      rw [Finset.sum_congr rfl (fun i _ => hterm i), Finset.sum_const, Finset.card_univ,
        Fintype.card_fin, nsmul_eq_mul, ← mul_assoc, mul_one_div,
        div_self (ne_of_gt hKr), one_mul]

/-- Witness for C9: the uniform distribution on two classes satisfies the
hypotheses; its entropy is `ln 2`, attaining the upper bound. -/
theorem entropy_bounds_onehot_uniform_witness :
    (∀ i : Fin 2, 0 ≤ (fun _ : Fin 2 => (1:ℝ)/2) i) ∧
    (∑ i : Fin 2, (fun _ : Fin 2 => (1:ℝ)/2) i = 1) ∧
    ((0 ≤ scipyEntropy (fun _ : Fin 2 => (1:ℝ)/2) ∧
        scipyEntropy (fun _ : Fin 2 => (1:ℝ)/2) ≤ Real.log (2:ℕ)) ∧
      (scipyEntropy (fun _ : Fin 2 => (1:ℝ)/2) = 0 ↔
        ∃ j : Fin 2, (fun _ : Fin 2 => (1:ℝ)/2) j = 1 ∧
          ∀ i, i ≠ j → (fun _ : Fin 2 => (1:ℝ)/2) i = 0) ∧
      (scipyEntropy (fun _ : Fin 2 => (1:ℝ)/2) = Real.log (2:ℕ) ↔
        ∀ i : Fin 2, (fun _ : Fin 2 => (1:ℝ)/2) i = 1 / (2:ℕ))) :=
  ⟨fun _ => by norm_num, by norm_num [Fin.sum_univ_two],
    entropy_bounds_onehot_uniform (fun _ : Fin 2 => (1:ℝ)/2) (fun _ => by norm_num)
      (by norm_num [Fin.sum_univ_two])⟩

end CellScanner
